import Mathlib

/-!
Verification development for the courtbot database manager
(`src/utils/db/manager.js`): a shallow embedding of its schema registry
(`createTableInstructions`), table provisioning (`createTable`,
`ensureTablesExist`), transactional batch insert (`batchInsert`) and
connection lifecycle (`closeConnection`), with theorems settling the
spec's claims about them.

The JavaScript module is asynchronous but strictly sequential: every
database effect is chained with `.then`, so each operation is embedded as
a pure function from an explicit database (or pool) state to a result, a
new state, and a trace of the effects it performed, in the order the
promise chain performs them.
-/

deriving instance DecidableEq for Except

namespace Courtbot

/-! ## Schema data model

Column, foreign-key and table shapes as the knex table-builder calls in
`createTableInstructions` describe them. -/

/-- Column type of a knex column-builder call: `table.string`,
`table.timestamp`, `table.integer`, `table.boolean`, `table.enu`,
`table.increments`. -/
inductive ColType where
  | str
  | timestamp
  | integer
  | boolean
  | enu (options : List String)
  | increments
  deriving DecidableEq, Repr

/-- Default value attached by `.defaultTo(...)` (or implied by
`table.timestamps(true, true)`): none, `false`, `true`, or `knex.fn.now()`. -/
inductive ColDefault where
  | noDefault
  | boolFalse
  | boolTrue
  | now
  deriving DecidableEq, Repr

/-- One column of a table definition: name, type, optional length limit
(the `100` of `table.string('defendant', 100)`), default. -/
structure ColumnSpec where
  name : String
  type : ColType
  limit : Option Nat
  dflt : ColDefault
  deriving DecidableEq, Repr

/-- A foreign-key constraint:
`table.foreign(cols).onDelete(od).references(refCols).inTable(refTable)`. -/
structure FKSpec where
  columns : List String
  referencesTable : String
  referencesColumns : List String
  onDelete : String
  deriving DecidableEq, Repr

/-- The shape of one table definition: its columns in declaration order,
primary-key columns (`table.primary([...])`, or the implicit primary key
of `table.increments()`), foreign keys, and secondary indexes
(`table.index(...)`). -/
structure TableSchema where
  columns : List ColumnSpec
  primaryKey : List String
  foreignKeys : List FKSpec
  indexes : List String
  deriving DecidableEq, Repr

/-- `hearings` table shape (manager.js lines 24-39): five columns,
composite primary key `(case_id, date)`, secondary index on `case_id`. -/
def hearingsSchema : TableSchema where
  columns :=
    [ ⟨"defendant", .str, some 100, .noDefault⟩
    , ⟨"date", .timestamp, none, .noDefault⟩
    , ⟨"room", .str, some 100, .noDefault⟩
    , ⟨"case_id", .str, some 100, .noDefault⟩
    , ⟨"type", .str, some 100, .noDefault⟩ ]
  primaryKey := ["case_id", "date"]
  foreignKeys := []
  indexes := ["case_id"]

/-- `requests` table shape (manager.js lines 40-54):
`table.timestamps(true, true)` adds `created_at` / `updated_at` timestamp
columns defaulting to now; composite primary key `(case_id, phone)`;
`known_case` defaults to `false`, `active` defaults to `true`. -/
def requestsSchema : TableSchema where
  columns :=
    [ ⟨"created_at", .timestamp, none, .now⟩
    , ⟨"updated_at", .timestamp, none, .now⟩
    , ⟨"case_id", .str, some 100, .noDefault⟩
    , ⟨"phone", .str, some 100, .noDefault⟩
    , ⟨"known_case", .boolean, none, .boolFalse⟩
    , ⟨"active", .boolean, none, .boolTrue⟩ ]
  primaryKey := ["case_id", "phone"]
  foreignKeys := []
  indexes := []

/-- `notifications` table shape (manager.js lines 55-70): no explicit
primary key; `type` restricted to the enum `{reminder, matched, expired}`;
composite foreign key `(case_id, phone)` referencing
`requests(case_id, phone)` with `onDelete: CASCADE`. -/
def notificationsSchema : TableSchema where
  columns :=
    [ ⟨"created_at", .timestamp, none, .now⟩
    , ⟨"case_id", .str, none, .noDefault⟩
    , ⟨"phone", .str, none, .noDefault⟩
    , ⟨"event_date", .timestamp, none, .noDefault⟩
    , ⟨"type", .enu ["reminder", "matched", "expired"], none, .noDefault⟩
    , ⟨"error", .str, none, .noDefault⟩ ]
  primaryKey := []
  foreignKeys :=
    [ ⟨["case_id", "phone"], "requests", ["case_id", "phone"], "CASCADE"⟩ ]
  indexes := []

/-- `log_runners` table shape (manager.js lines 71-84): `table.increments()`
creates an auto-increment `id` column that is the primary key; `runner` is
restricted to the enum `{send_reminder, send_expired, send_matched, load}`. -/
def logRunnersSchema : TableSchema where
  columns :=
    [ ⟨"id", .increments, none, .noDefault⟩
    , ⟨"runner", .enu ["send_reminder", "send_expired", "send_matched", "load"], none, .noDefault⟩
    , ⟨"count", .integer, none, .noDefault⟩
    , ⟨"error_count", .integer, none, .noDefault⟩
    , ⟨"date", .timestamp, none, .now⟩ ]
  primaryKey := ["id"]
  foreignKeys := []
  indexes := []

/-- `log_hits` table shape (manager.js lines 85-100): no primary key,
free-form string columns plus a `time` timestamp defaulting to now. -/
def logHitsSchema : TableSchema where
  columns :=
    [ ⟨"time", .timestamp, none, .now⟩
    , ⟨"path", .str, none, .noDefault⟩
    , ⟨"method", .str, none, .noDefault⟩
    , ⟨"status_code", .str, none, .noDefault⟩
    , ⟨"phone", .str, none, .noDefault⟩
    , ⟨"body", .str, none, .noDefault⟩
    , ⟨"action", .str, none, .noDefault⟩ ]
  primaryKey := []
  foreignKeys := []
  indexes := []

/-- The schema registry `createTableInstructions` (manager.js lines 23-101):
a string-keyed object mapping each table name to its create-procedure,
embedded as an association list from table name to the table shape that
procedure creates, in the object's declaration order. Every procedure has
the same form — `knex.schema.hasTable(name).then(exists => if (!exists)
createTable(name, shape))` — captured once by `runInstruction` below. -/
def createTableInstructions : List (String × TableSchema) :=
  [ ("hearings", hearingsSchema)
  , ("requests", requestsSchema)
  , ("notifications", notificationsSchema)
  , ("log_runners", logRunnersSchema)
  , ("log_hits", logHitsSchema) ]

/-! ## Live database state and the provisioning operations

The live Postgres schema is embedded as an association list from table
name to table shape; `knex.schema.hasTable` is a lookup on it. Each
operation also records the observable effects it performs (logging calls
and DDL statements) as a trace of `Event`s, in execution order. -/

/-- The live database schema: the tables that currently exist, each with
its shape, in creation order. -/
abbrev LiveDb := List (String × TableSchema)

/-- `knex.schema.hasTable(t)`: whether table `t` exists in the live schema. -/
def hasTable (db : LiveDb) (t : String) : Bool :=
  (db.lookup t).isSome

/-- A DDL execution error raised by the database while creating a table
(privilege, connectivity, ...), carrying the table it was raised for. -/
structure DdlError where
  table : String
  deriving DecidableEq, Repr

/-- The property names every plain JavaScript object literal inherits
from `Object.prototype`, all bound to truthy values (methods, and the
`__proto__` accessor's object). `createTableInstructions` is an object
literal, so `createTableInstructions[table]` for these names yields the
inherited value, not `undefined`. -/
def objectProtoKeys : List String :=
  [ "constructor", "hasOwnProperty", "isPrototypeOf", "propertyIsEnumerable"
  , "toLocaleString", "toString", "valueOf", "__defineGetter__"
  , "__defineSetter__", "__lookupGetter__", "__lookupSetter__", "__proto__" ]

/-- The value of the JavaScript property access
`createTableInstructions[table]`: an own key's create-procedure (with its
table shape), a truthy member inherited from `Object.prototype`, or
`undefined`. -/
inductive PropVal where
  | registered (s : TableSchema)
  | inherited
  | absent
  deriving DecidableEq, Repr

/-- `createTableInstructions[table]` with JavaScript lookup semantics:
own keys first, then the prototype chain, else `undefined`. -/
def tableProp (t : String) : PropVal :=
  match createTableInstructions.lookup t with
  | some s => .registered s
  | none => if t ∈ objectProtoKeys then .inherited else .absent

/-- Rejection of the promise `createTable` returns: a DDL execution
error, or the `TypeError` raised inside the existence-check callback for
an inherited `Object.prototype` name — the inherited member is not a
create-procedure, so calling it and chaining `.then` onto its
non-promise result throws, rejecting the outer promise. -/
inductive CreateError where
  | ddl (e : DdlError)
  | inheritedCall (t : String)
  deriving DecidableEq, Repr

/-- Observable effects of the provisioning code, in execution order:
`attempt t` marks `ensureTablesExist` invoking `createTable(t)`;
`logNoInstructions` the `logger.error` for an unregistered name;
`hasTableCheck` a `knex.schema.hasTable` query; `logSkip` the
"already exists, will not create" debug log; `ddlCreate` execution of the
`knex.schema.createTable` DDL; `logCreated` the "table created" debug log;
`logCaught` the `logger.error(err)` in `ensureTablesExist`'s catch. -/
inductive Event where
  | attempt (t : String)
  | logNoInstructions (t : String)
  | hasTableCheck (t : String)
  | logSkip (t : String)
  | ddlCreate (t : String)
  | logCreated (t : String)
  | logCaught
  deriving DecidableEq, Repr

/-- What a call to `createTable` hands back to JavaScript: the synchronous
boolean `false` of the guard branch (manager.js line 147), or a promise
that either resolves or rejects with a `CreateError`. -/
inductive JsReturn where
  | bool (b : Bool)
  | promise (outcome : Except CreateError Unit)
  deriving DecidableEq, Repr

/-- Result of running `createTable`: the value returned to JavaScript, the
live schema afterwards, and the trace of effects performed. -/
structure CTOut where
  ret : JsReturn
  db : LiveDb
  trace : List Event
  deriving DecidableEq, Repr

/-- One create-procedure of `createTableInstructions` (manager.js lines
24-100): check `hasTable`, and if the table is absent execute the
`knex.schema.createTable` DDL for shape `s`. The DDL may fail; which
tables' DDL fails is the environment parameter `ddlFail`. -/
def runInstruction (ddlFail : String → Bool) (t : String) (s : TableSchema)
    (db : LiveDb) : Except DdlError Unit × LiveDb × List Event :=
  if hasTable db t then
    (.ok (), db, [.hasTableCheck t])
  else if ddlFail t then
    (.error ⟨t⟩, db, [.hasTableCheck t, .ddlCreate t])
  else
    (.ok (), db ++ [(t, s)], [.hasTableCheck t, .ddlCreate t])

/-- `createTable(table)` (manager.js lines 144-161). The guard
`if (!createTableInstructions[table])` tests JavaScript truthiness of the
property access, prototype chain included: only a name that is neither an
own key nor an inherited `Object.prototype` member takes the error-log /
`return false` branch. Otherwise check `hasTable`: if the table exists,
log a skip and resolve. If absent, call `createTableInstructions[table]()`
— for an own key that runs the registered create-procedure (which
re-checks existence itself) and then logs creation, a DDL failure
rejecting the returned promise; for an inherited member the call's result
is not a promise, so the `.then` chained onto it throws a `TypeError`
that rejects the returned promise with no DDL run and no error log. -/
def createTable (ddlFail : String → Bool) (t : String) (db : LiveDb) : CTOut :=
  match tableProp t with
  | .absent => ⟨.bool false, db, [.logNoInstructions t]⟩
  | .inherited =>
    if hasTable db t then
      ⟨.promise (.ok ()), db, [.hasTableCheck t, .logSkip t]⟩
    else
      ⟨.promise (.error (.inheritedCall t)), db, [.hasTableCheck t]⟩
  | .registered s =>
    if hasTable db t then
      ⟨.promise (.ok ()), db, [.hasTableCheck t, .logSkip t]⟩
    else
      match runInstruction ddlFail t s db with
      | (.ok _, db', evs) =>
        ⟨.promise (.ok ()), db', .hasTableCheck t :: (evs ++ [.logCreated t])⟩
      | (.error e, db', evs) =>
        ⟨.promise (.error (.ddl e)), db', .hasTableCheck t :: evs⟩

/-- A JavaScript `TypeError`: in `ensureTablesExist`, `.catch` is chained
onto `createTable(v)`'s return value, which throws if that value is the
boolean `false` rather than a promise. -/
inductive JsError where
  | typeError
  deriving DecidableEq, Repr

/-- State of `ensureTablesExist`'s promise chain: whether the chain is
still resolved or has been rejected by a thrown `TypeError`, the live
schema, and the accumulated trace. -/
structure ChainOut where
  result : Except JsError Unit
  db : LiveDb
  trace : List Event
  deriving DecidableEq, Repr

/-- One step of `ensureTablesExist`'s reduce (manager.js lines 185-188):
`p.then(() => createTable(v).catch(err => logger.error(err)))`. A rejected
chain skips the callback; otherwise `createTable(v)` runs on the current
state — a boolean return would make the `.catch` chaining throw a
`TypeError` rejecting the chain, a rejected promise is caught and logged,
a resolved promise continues the chain. -/
def ensureStep (ddlFail : String → Bool) (s : ChainOut) (v : String) : ChainOut :=
  match s.result with
  | .error e => ⟨.error e, s.db, s.trace⟩
  | .ok _ =>
    let c := createTable ddlFail v s.db
    match c.ret with
    | .bool _ => ⟨.error .typeError, c.db, s.trace ++ .attempt v :: c.trace⟩
    | .promise (.ok _) => ⟨.ok (), c.db, s.trace ++ .attempt v :: c.trace⟩
    | .promise (.error _) =>
      ⟨.ok (), c.db, s.trace ++ .attempt v :: (c.trace ++ [.logCaught])⟩

/-- The fixed provisioning order of `ensureTablesExist`
(manager.js line 184). -/
def ensureOrder : List String :=
  ["requests", "hearings", "notifications", "log_runners", "log_hits"]

/-- The promise chain built by `tables.reduce(...)`: process the table
names strictly sequentially, each step starting from the state the
previous step produced. -/
def ensureRun (ddlFail : String → Bool) (ts : List String) (s : ChainOut) :
    ChainOut :=
  ts.foldl (ensureStep ddlFail) s

/-- `ensureTablesExist()` (manager.js lines 183-189): sequentially reduce
over the fixed order, starting from a resolved chain
(`Promise.resolve()`) with an empty trace. -/
def ensureTablesExist (ddlFail : String → Bool) (db : LiveDb) : ChainOut :=
  ensureRun ddlFail ensureOrder ⟨.ok (), db, []⟩

/-! ## Transactional batch insert

`batchInsert(table, rows, size)` (manager.js lines 111-118) wraps
`trx.batchInsert` in an explicit `knex.transaction`, committing on success
and rolling back on any failure, the failure propagating through the
rejected transaction promise. `trx.batchInsert` validates the chunk size
(rejecting sizes below 1), splits the rows into chunks of at most `size`,
and inserts the chunks one after the other inside the transaction. -/

/-- A row to insert: field name / value pairs. -/
abbrev Row := List (String × String)

/-- Row contents of the live database, one row list per table name. -/
abbrev InsertDb := List (String × List Row)

/-- The rows currently in table `t` (a table with no entry is empty). -/
def tableRows (db : InsertDb) (t : String) : List Row :=
  (db.lookup t).getD []

/-- Replace the contents of table `t` with `rs` (committing a
transaction's working state for that table). -/
def setRows (t : String) (rs : List Row) : InsertDb → InsertDb
  | [] => [(t, rs)]
  | (n, old) :: rest =>
    if n = t then (n, rs) :: rest else (n, old) :: setRows t rs rest

/-- Failure inside `trx.batchInsert`: the `TypeError` its chunk-size
validation throws for sizes below 1, or a database error while inserting
one chunk (carrying that chunk). -/
inductive BatchError where
  | invalidChunkSize
  | chunkFailed (chunk : List Row)
  deriving DecidableEq, Repr

/-- Split `xs` into consecutive chunks of at most `size` elements
(lodash `chunk`, as `trx.batchInsert` uses it; `size = 0` yields no
chunks, though the validation below rejects it first). -/
def chunksOf (size : Nat) (xs : List Row) : List (List Row) :=
  if xs = [] ∨ size = 0 then []
  else xs.take size :: chunksOf size (xs.drop size)
termination_by xs.length
decreasing_by
  rename_i h
  rw [not_or] at h
  simp only [List.length_drop]
  exact Nat.sub_lt (List.length_pos.mpr h.1) (Nat.pos_of_ne_zero h.2)

/-- Insert the chunks one after the other into the transaction's working
row list; the first failing chunk (per the environment parameter `fail`)
aborts with an error. -/
def insertChunks (fail : List Row → Bool) :
    List (List Row) → List Row → Except BatchError (List Row)
  | [], acc => .ok acc
  | c :: cs, acc =>
    if fail c then .error (.chunkFailed c) else insertChunks fail cs (acc ++ c)

/-- `trx.batchInsert(table, rows, size)` applied to the working contents
`acc` of the target table: validate the chunk size, then insert the
chunks sequentially. -/
def trxBatchInsert (fail : List Row → Bool) (rows : List Row) (size : Nat)
    (acc : List Row) : Except BatchError (List Row) :=
  if size < 1 then .error .invalidChunkSize
  else insertChunks fail (chunksOf size rows) acc

/-- Result of `batchInsert`: the settled outer promise (resolved, or
rejected with the propagated failure) and the committed database state. -/
structure BatchOut where
  result : Except BatchError Unit
  db : InsertDb
  deriving DecidableEq, Repr

/-- `batchInsert(table, rows, size)` (manager.js lines 111-118):
`knex.transaction(trx => trx.batchInsert(table, rows, size)
.then(trx.commit).catch(trx.rollback))`. On success the transaction's
working state is committed; on any failure the transaction rolls back —
the committed state is unchanged — and the failure rejects the returned
promise. -/
def batchInsert (fail : List Row → Bool) (table : String) (rows : List Row)
    (size : Nat) (db : InsertDb) : BatchOut :=
  match trxBatchInsert fail rows size (tableRows db table) with
  | .ok rs => ⟨.ok (), setRows table rs db⟩
  | .error e => ⟨.error e, db⟩

/-! ## Connection lifecycle

`closeConnection(conn)` (manager.js lines 129-135) compares its argument
to `null` with JavaScript loose equality (`conn == null`), which also
holds for `undefined` — in particular for a call with no argument at all.
The pool is embedded as its idle and checked-out connection ids plus a
destroyed flag. -/

/-- The JavaScript value passed for `conn`: `undefined` (also the value of
a missing argument), `null`, or an actual connection handle. -/
inductive JsVal where
  | undef
  | null
  | conn (id : Nat)
  deriving DecidableEq, Repr

/-- JavaScript loose equality against null: `v == null` is `true` exactly
for `null` and `undefined`. -/
def jsEqNull : JsVal → Bool
  | .undef => true
  | .null => true
  | .conn _ => false

/-- The shared connection pool: idle connection ids, checked-out
connection ids, and whether the pool has been destroyed. -/
structure Pool where
  idle : List Nat
  used : List Nat
  destroyed : Bool
  deriving DecidableEq, Repr

/-- `knex.client.pool.destroy()`: tear down the whole pool — every idle
connection is destroyed and the pool is marked destroyed. -/
def destroyPool (p : Pool) : Pool :=
  { idle := [], used := p.used, destroyed := true }

/-- `knex.client.releaseConnection(conn)`: return the one checked-out
connection `id` to the pool's idle set, leaving everything else as it was
(releasing a connection not checked out is the underlying pool's
undefined behaviour; embedded as a no-op). -/
def releaseConnection (id : Nat) (p : Pool) : Pool :=
  if id ∈ p.used then
    { idle := p.idle ++ [id], used := p.used.erase id, destroyed := p.destroyed }
  else p

/-- `closeConnection(conn)` (manager.js lines 129-135): `if (conn == null)`
destroy the entire pool, `else` release the given connection back to it. -/
def closeConnection (conn : JsVal) (p : Pool) : Pool :=
  if jsEqNull conn then destroyPool p
  else
    match conn with
    | .conn id => releaseConnection id p
    | _ => p

/-- Whether an event is an `ensureTablesExist` attempt marker (used to
state that every table of the provisioning order is attempted exactly
once, in order). -/
def isAttempt : Event → Bool
  | .attempt _ => true
  | _ => false

/-! ## Helper lemmas -/

theorem lookup_append_left {β : Type} (l₁ l₂ : List (String × β)) (a : String)
    (h : (l₁.lookup a).isSome = true) : (l₁ ++ l₂).lookup a = l₁.lookup a := by
  induction l₁ with
  | nil => simp [List.lookup] at h
  | cons p rest ih =>
    obtain ⟨k, v⟩ := p
    by_cases hk : a = k
    · simp [List.lookup, hk]
    · simp only [List.lookup, List.cons_append, beq_eq_false_iff_ne,
        beq_iff_eq, hk, if_false] at h ⊢
      rw [show (a == k) = false from beq_eq_false_iff_ne.mpr hk] at h ⊢
      exact ih h

theorem lookup_append_right {β : Type} (l₁ l₂ : List (String × β)) (a : String)
    (h : l₁.lookup a = none) : (l₁ ++ l₂).lookup a = l₂.lookup a := by
  induction l₁ with
  | nil => simp
  | cons p rest ih =>
    obtain ⟨k, v⟩ := p
    by_cases hk : a = k
    · rw [hk] at h; simp [List.lookup] at h
    · rw [List.cons_append, List.lookup,
        show (a == k) = false from beq_eq_false_iff_ne.mpr hk]
      rw [List.lookup, show (a == k) = false from beq_eq_false_iff_ne.mpr hk] at h
      exact ih h

theorem tableRows_setRows (t : String) (rs : List Row) (db : InsertDb)
    (t' : String) :
    tableRows (setRows t rs db) t' = if t' = t then rs else tableRows db t' := by
  induction db with
  | nil =>
    by_cases h : t' = t
    · simp [setRows, tableRows, List.lookup, h]
    · simp [setRows, tableRows, List.lookup, h,
        show (t' == t) = false from beq_eq_false_iff_ne.mpr h]
  | cons p rest ih =>
    obtain ⟨n, old⟩ := p
    rw [setRows]
    by_cases hn : n = t
    · rw [if_pos hn]
      by_cases h : t' = t
      · simp [tableRows, List.lookup, h, hn]
      · simp [tableRows, List.lookup, h, hn,
          show (t' == t) = false from beq_eq_false_iff_ne.mpr h]
    · rw [if_neg hn]
      by_cases h : t' = n
      · have : t' ≠ t := fun hc => hn (by rw [← h, hc])
        simp [tableRows, List.lookup, h, this, hn]
      · simp only [tableRows, List.lookup,
          show (t' == n) = false from beq_eq_false_iff_ne.mpr h]
        exact ih

theorem insertChunks_ok (fail : List Row → Bool) (cs : List (List Row))
    (acc r : List Row) (h : insertChunks fail cs acc = .ok r) :
    r = acc ++ cs.flatten := by
  induction cs generalizing acc with
  | nil => simp [insertChunks] at h; simp [h.symm]
  | cons c rest ih =>
    rw [insertChunks] at h
    by_cases hc : fail c = true
    · simp [hc] at h
    · rw [if_neg hc] at h
      rw [ih (acc ++ c) h]
      simp

theorem chunksOf_flatten (size : Nat) (hsize : 1 ≤ size) (xs : List Row) :
    (chunksOf size xs).flatten = xs := by
  rw [chunksOf]
  by_cases hx : xs = []
  · simp [hx]
  · rw [if_neg (by simp [hx]; omega), List.flatten_cons,
      chunksOf_flatten size hsize (xs.drop size)]
    exact List.take_append_drop size xs
termination_by xs.length
decreasing_by
  simp only [List.length_drop]
  exact Nat.sub_lt (List.length_pos.mpr hx) (by omega)

/-! ## C1 and C7: transactional batch insert -/

/-- C1. For every failure environment, table name, row list and chunk
size, `batchInsert` is atomic and loud: either the outer transaction
promise resolves and the committed state holds every row of the batch
appended to the target table, or it rejects with the propagated failure
and the committed state is exactly the state before the call — no chunk
of the batch remains visible. -/
theorem batchInsert_atomic (fail : List Row → Bool) (table : String)
    (rows : List Row) (size : Nat) (db : InsertDb) :
    ((batchInsert fail table rows size db).result = .ok () ∧
      (batchInsert fail table rows size db).db
        = setRows table (tableRows db table ++ rows) db) ∨
    (∃ e, (batchInsert fail table rows size db).result = .error e ∧
      (batchInsert fail table rows size db).db = db) := by
  cases h : trxBatchInsert fail rows size (tableRows db table) with
  | ok rs =>
    left
    have hsz : ¬ size < 1 := by
      intro hc
      have h' := h
      rw [trxBatchInsert, if_pos hc] at h'
      exact Except.noConfusion h'
    have hrs : rs = tableRows db table ++ rows := by
      have h' := h
      rw [trxBatchInsert, if_neg hsz] at h'
      rw [insertChunks_ok fail _ _ _ h', chunksOf_flatten size (by omega) rows]
    rw [hrs] at h
    exact ⟨by simp [batchInsert, h], by simp [batchInsert, h]⟩
  | error e =>
    right
    exact ⟨e, by simp [batchInsert, h], by simp [batchInsert, h]⟩

/-- C7. For every failure environment, table name, chunk size of at least
one, and database state, `batchInsert` of an empty row list commits
successfully and inserts nothing: the outer promise resolves and every
table's rows are unchanged. -/
theorem batchInsert_empty_rows (fail : List Row → Bool) (table : String)
    (size : Nat) (db : InsertDb) (hsize : 1 ≤ size) :
    (batchInsert fail table [] size db).result = .ok () ∧
    ∀ t, tableRows (batchInsert fail table [] size db).db t = tableRows db t := by
  have hc : chunksOf size [] = [] := by rw [chunksOf]; simp
  have htrx : trxBatchInsert fail [] size (tableRows db table)
      = .ok (tableRows db table) := by
    rw [trxBatchInsert, if_neg (by omega), hc, insertChunks]
  refine ⟨by simp [batchInsert, htrx], fun t => ?_⟩
  rw [show (batchInsert fail table [] size db).db
      = setRows table (tableRows db table) db by simp [batchInsert, htrx]]
  rw [tableRows_setRows]
  split <;> simp_all

/-- Witness for C7 at a concrete input: chunk size 2, empty rows, empty
database. -/
theorem batchInsert_empty_rows_witness :
    1 ≤ 2 ∧ (batchInsert (fun _ => true) "requests" [] 2 []).result = .ok () ∧
    tableRows (batchInsert (fun _ => true) "requests" [] 2 []).db "hearings"
      = tableRows [] "hearings" := by
  have h := batchInsert_empty_rows (fun _ => true) "requests" 2 [] (by decide)
  exact ⟨by decide, h.1, h.2 "hearings"⟩

/-! ## Helper lemmas about `createTable` and `ensureTablesExist` -/

theorem tableProp_registered (t : String) (s : TableSchema)
    (hs : createTableInstructions.lookup t = some s) :
    tableProp t = .registered s := by
  simp [tableProp, hs]

theorem createTable_ret_promise (f : String → Bool) (t : String) (db : LiveDb)
    (hreg : (createTableInstructions.lookup t).isSome = true) :
    ∃ e, (createTable f t db).ret = .promise e := by
  obtain ⟨s, hs⟩ := Option.isSome_iff_exists.mp hreg
  have hp := tableProp_registered t s hs
  by_cases hdb : hasTable db t
  · exact ⟨.ok (), by simp [createTable, hp, hdb]⟩
  · by_cases hf : f t = true
    · exact ⟨.error (.ddl ⟨t⟩),
        by simp [createTable, runInstruction, hp, hdb, hf]⟩
    · exact ⟨.ok (), by simp [createTable, runInstruction, hp, hdb, hf]⟩

theorem createTable_registered_ok (f : String → Bool) (t : String) (db : LiveDb)
    (hreg : (createTableInstructions.lookup t).isSome = true) (hf : f t = false) :
    (createTable f t db).ret = .promise (.ok ()) ∧
    hasTable (createTable f t db).db t = true := by
  obtain ⟨s, hs⟩ := Option.isSome_iff_exists.mp hreg
  have hp := tableProp_registered t s hs
  by_cases hdb : hasTable db t
  · constructor
    · simp [createTable, hp, hdb]
    · simp [createTable, hp, hdb]
  · have hnone : db.lookup t = none := by
      cases hcase : db.lookup t with
      | none => rfl
      | some v => exact absurd (by simp [hasTable, hcase]) hdb
    constructor
    · simp [createTable, runInstruction, hp, hdb, hf]
    · rw [show (createTable f t db).db = db ++ [(t, s)] by
        simp [createTable, runInstruction, hp, hdb, hf]]
      rw [hasTable, lookup_append_right db [(t, s)] t hnone]
      simp [List.lookup]

theorem createTable_skip (f : String → Bool) (t : String) (db : LiveDb)
    (hreg : (createTableInstructions.lookup t).isSome = true)
    (hdb : hasTable db t = true) :
    createTable f t db
      = ⟨.promise (.ok ()), db, [.hasTableCheck t, .logSkip t]⟩ := by
  obtain ⟨s, hs⟩ := Option.isSome_iff_exists.mp hreg
  simp [createTable, tableProp_registered t s hs, hdb]

theorem createTable_db_invariant (f : String → Bool) (t : String) (db : LiveDb) :
    (createTable f t db).db = db ∨
    ∃ s, (createTable f t db).db = db ++ [(t, s)] := by
  cases hp : tableProp t with
  | absent => left; simp [createTable, hp]
  | inherited =>
    left
    by_cases hdb : hasTable db t <;> simp [createTable, hp, hdb]
  | registered s =>
    by_cases hdb : hasTable db t
    · left; simp [createTable, hp, hdb]
    · by_cases hf : f t = true
      · left; simp [createTable, runInstruction, hp, hdb, hf]
      · right; exact ⟨s, by simp [createTable, runInstruction, hp, hdb, hf]⟩

theorem hasTable_mono (f : String → Bool) (t x : String) (db : LiveDb)
    (h : hasTable db x = true) : hasTable (createTable f t db).db x = true := by
  rcases createTable_db_invariant f t db with hd | ⟨s, hd⟩
  · rwa [hd]
  · rw [hd, hasTable, lookup_append_left db [(t, s)] x h]
    exact h

theorem ensureStep_db_ok (f : String → Bool) (s : ChainOut) (v : String)
    (hs : s.result = .ok ()) :
    (ensureStep f s v).db = (createTable f v s.db).db := by
  simp only [ensureStep, hs]
  cases hr : (createTable f v s.db).ret with
  | bool b => simp [hr]
  | promise o => cases o <;> simp [hr]

theorem hasTable_ensureStep (f : String → Bool) (s : ChainOut) (v x : String)
    (h : hasTable s.db x = true) :
    hasTable (ensureStep f s v).db x = true := by
  cases hres : s.result with
  | error e => simpa [ensureStep, hres] using h
  | ok u =>
    cases u
    rw [ensureStep_db_ok f s v hres]
    exact hasTable_mono f v x s.db h

theorem filter_isAttempt_createTable (f : String → Bool) (t : String)
    (db : LiveDb) :
    (createTable f t db).trace.filter isAttempt = [] := by
  cases hp : tableProp t with
  | absent => simp [createTable, hp, isAttempt]
  | inherited =>
    by_cases hdb : hasTable db t <;> simp [createTable, hp, hdb, isAttempt]
  | registered s =>
    by_cases hdb : hasTable db t
    · simp [createTable, hp, hdb, isAttempt]
    · by_cases hf : f t = true <;>
        simp [createTable, runInstruction, hp, hdb, hf, isAttempt]

theorem ensureStep_ok (f : String → Bool) (s : ChainOut) (v : String)
    (hs : s.result = .ok ())
    (hreg : (createTableInstructions.lookup v).isSome = true) :
    (ensureStep f s v).result = .ok () ∧
    (ensureStep f s v).trace.filter isAttempt
      = s.trace.filter isAttempt ++ [.attempt v] := by
  obtain ⟨e, he⟩ := createTable_ret_promise f v s.db hreg
  have hfil := filter_isAttempt_createTable f v s.db
  simp only [ensureStep, hs]
  rw [he]
  cases e with
  | ok u =>
    cases u
    refine ⟨rfl, ?_⟩
    simp [List.filter_append, hfil, isAttempt]
  | error e =>
    refine ⟨rfl, ?_⟩
    simp [List.filter_append, hfil, isAttempt]

theorem ensureRun_best_effort (f : String → Bool) (ts : List String)
    (s : ChainOut) (hs : s.result = .ok ())
    (hreg : ∀ v ∈ ts, (createTableInstructions.lookup v).isSome = true) :
    (ensureRun f ts s).result = .ok () ∧
    (ensureRun f ts s).trace.filter isAttempt
      = s.trace.filter isAttempt ++ ts.map Event.attempt := by
  induction ts generalizing s with
  | nil => simpa [ensureRun] using hs
  | cons v rest ih =>
    have hv := hreg v (List.mem_cons_self v rest)
    have hstep := ensureStep_ok f s v hs hv
    have hrest := ih (ensureStep f s v) hstep.1
      (fun x hx => hreg x (List.mem_cons_of_mem v hx))
    rw [show ensureRun f (v :: rest) s
        = ensureRun f rest (ensureStep f s v) from rfl]
    refine ⟨hrest.1, ?_⟩
    rw [hrest.2, hstep.2]
    simp

/-! ## C2, C3, C4, C5, C9: provisioning -/

/-- C2. `ensureTablesExist` is strictly sequential in the fixed order:
the whole run is, definitionally, the run of the suffix starting from
`notifications` applied to the completed run of `[requests, hearings]` —
so `notifications` is processed only after the `requests` step finished —
and, provided the `requests` DDL itself does not fail, the database state
in which the `notifications` step starts already contains `requests`:
its creation is never attempted while `requests` is absent. -/
theorem ensureTablesExist_fk_order (f : String → Bool) (db : LiveDb)
    (h : f "requests" = false) :
    ensureTablesExist f db =
      ensureRun f ["notifications", "log_runners", "log_hits"]
        (ensureRun f ["requests", "hearings"] ⟨.ok (), db, []⟩) ∧
    hasTable (ensureRun f ["requests", "hearings"] ⟨.ok (), db, []⟩).db
      "requests" = true := by
  refine ⟨rfl, ?_⟩
  have h0 : (⟨.ok (), db, []⟩ : ChainOut).result = .ok () := rfl
  have h1 : hasTable (ensureStep f ⟨.ok (), db, []⟩ "requests").db
      "requests" = true := by
    rw [ensureStep_db_ok f _ "requests" h0]
    exact (createTable_registered_ok f "requests" db (by decide) h).2
  rw [show ensureRun f ["requests", "hearings"] ⟨.ok (), db, []⟩
      = ensureStep f (ensureStep f ⟨.ok (), db, []⟩ "requests") "hearings"
      from rfl]
  exact hasTable_ensureStep f _ "hearings" "requests" h1

/-- Witness for C2: no DDL failures, empty initial database. -/
theorem ensureTablesExist_fk_order_witness :
    ((fun _ : String => false) "requests" = false) ∧
    hasTable (ensureRun (fun _ => false) ["requests", "hearings"]
      ⟨.ok (), [], []⟩).db "requests" = true := by
  have h := ensureTablesExist_fk_order (fun _ => false) [] rfl
  exact ⟨rfl, h.2⟩

/-- C3. `createTable` is idempotent for a registered table: when the first
call's DDL does not fail, that call resolves, and a second call (under any
DDL environment) resolves again, short-circuits on the existence check —
its whole behaviour is the skip branch: state unchanged, trace exactly the
existence check and the skip log — and never reaches the create-procedure,
so the table schema after the second call equals the schema after the
first. -/
theorem createTable_idempotent (f g : String → Bool) (t : String) (db : LiveDb)
    (hreg : (createTableInstructions.lookup t).isSome = true)
    (hf : f t = false) :
    (createTable f t db).ret = .promise (.ok ()) ∧
    createTable g t (createTable f t db).db
      = ⟨.promise (.ok ()), (createTable f t db).db,
          [.hasTableCheck t, .logSkip t]⟩ ∧
    Event.ddlCreate t ∉ (createTable g t (createTable f t db).db).trace := by
  have h1 := createTable_registered_ok f t db hreg hf
  have h2 := createTable_skip g t (createTable f t db).db hreg h1.2
  refine ⟨h1.1, h2, ?_⟩
  rw [h2]
  simp

/-- Witness for C3: table `hearings`, no DDL failures, empty database. -/
theorem createTable_idempotent_witness :
    (createTableInstructions.lookup "hearings").isSome = true ∧
    ((fun _ : String => false) "hearings" = false) ∧
    (createTable (fun _ => false) "hearings" []).ret = .promise (.ok ()) := by
  have h := createTable_idempotent (fun _ => false) (fun _ => false)
    "hearings" [] (by decide) rfl
  exact ⟨by decide, rfl, h.1⟩

/-- C4. `ensureTablesExist` is best-effort: whatever tables' DDL fails,
the returned promise resolves (per-table failures are caught and logged,
never aborting the sequence), and the trace's attempt markers are exactly
one `createTable` invocation per table of the provisioning order, in
order. -/
theorem ensureTablesExist_best_effort (f : String → Bool) (db : LiveDb) :
    (ensureTablesExist f db).result = .ok () ∧
    (ensureTablesExist f db).trace.filter isAttempt
      = ensureOrder.map Event.attempt := by
  have h := ensureRun_best_effort f ensureOrder ⟨.ok (), db, []⟩ rfl (by decide)
  exact ⟨h.1, by simpa using h.2⟩

/-- Counterexample to C5 as stated. `"toString"` has no entry in the
table-definition registry, yet `createTable` neither logs the
"no instructions" error nor returns the boolean failure signal: the
guard tests JavaScript truthiness of `createTableInstructions["toString"]`,
which finds the truthy inherited `Object.prototype.toString`, so the call
runs the existence check and returns a promise rejected with a
`TypeError` (no error log in its trace). -/
theorem createTable_unregistered_cex :
    createTableInstructions.lookup "toString" = none ∧
    (createTable (fun _ => false) "toString" []).ret ≠ .bool false ∧
    (createTable (fun _ => false) "toString" []).ret
      = .promise (.error (.inheritedCall "toString")) ∧
    (createTable (fun _ => false) "toString" []).trace
      = [.hasTableCheck "toString"] := by
  decide

/-- C5 as amended: for a name with no entry in `createTableInstructions`
that is not an inherited `Object.prototype` property — so that
`createTableInstructions[table]` is actually falsy — `createTable` logs
the error and returns the falsy boolean `false` without throwing: the
database is untouched (no DDL runs, no other table is affected) and the
only effect is the error log. -/
theorem createTable_unregistered_amended (f : String → Bool) (t : String)
    (db : LiveDb) (h : createTableInstructions.lookup t = none)
    (hp : t ∉ objectProtoKeys) :
    (createTable f t db).ret = .bool false ∧
    (createTable f t db).db = db ∧
    (createTable f t db).trace = [.logNoInstructions t] := by
  simp [createTable, tableProp, h, hp]

/-- Witness for the amended C5 at the spec's concrete input
`"nonexistent_table"`. -/
theorem createTable_unregistered_amended_witness :
    createTableInstructions.lookup "nonexistent_table" = none ∧
    "nonexistent_table" ∉ objectProtoKeys ∧
    (createTable (fun _ => false) "nonexistent_table" []).ret = .bool false := by
  have h : createTableInstructions.lookup "nonexistent_table" = none := by decide
  have hp : "nonexistent_table" ∉ objectProtoKeys := by decide
  exact ⟨h, hp,
    (createTable_unregistered_amended (fun _ => false) "nonexistent_table" [] h hp).1⟩

/-- C9. `createTable`'s two outcomes have different types — for every
name of `ensureTablesExist`'s fixed list the result is a promise value and
never the boolean `false` — so the `.catch` chained onto it in
`ensureTablesExist` never throws: the boolean-returning branch is
unreachable there and the whole pass resolves. -/
theorem createTable_false_unreachable (f : String → Bool) (db : LiveDb)
    (t : String) (ht : t ∈ ensureOrder) :
    (∃ e, (createTable f t db).ret = .promise e) ∧
    (∀ b, (createTable f t db).ret ≠ .bool b) ∧
    (ensureTablesExist f db).result = .ok () := by
  have hreg : (createTableInstructions.lookup t).isSome = true := by
    simp only [ensureOrder, List.mem_cons, List.not_mem_nil, or_false] at ht
    rcases ht with rfl | rfl | rfl | rfl | rfl <;> decide
  obtain ⟨e, he⟩ := createTable_ret_promise f t db hreg
  refine ⟨⟨e, he⟩, ?_, ?_⟩
  · intro b hb
    rw [he] at hb
    exact JsReturn.noConfusion hb
  · exact (ensureRun_best_effort f ensureOrder ⟨.ok (), db, []⟩ rfl (by decide)).1

/-- Witness for C9: the first table of the fixed list, no DDL failures,
empty database. -/
theorem createTable_false_unreachable_witness :
    "requests" ∈ ensureOrder ∧
    (∃ e, (createTable (fun _ => false) "requests" []).ret = .promise e) := by
  have h := createTable_false_unreachable (fun _ => false) [] "requests"
    (by decide)
  exact ⟨by decide, h.1⟩

/-! ## C6: the schema registry's contents -/

/-- C6. The registry holds exactly the five table definitions and they
match the specified shapes: `hearings` has composite primary key
`(case_id, date)` and a secondary index on `case_id`; `requests` has
composite primary key `(case_id, phone)` with `known_case` defaulting
false and `active` defaulting true; `notifications` has no explicit
primary key, a composite foreign key `(case_id, phone)` referencing
`requests(case_id, phone)` with cascade delete, and `type` restricted to
`{reminder, matched, expired}`; `log_runners` has the auto-increment `id`
primary key and `runner` restricted to
`{send_reminder, send_expired, send_matched, load}`. -/
theorem createTableInstructions_shapes :
    createTableInstructions.map Prod.fst
      = ["hearings", "requests", "notifications", "log_runners", "log_hits"] ∧
    createTableInstructions.lookup "hearings" = some hearingsSchema ∧
    createTableInstructions.lookup "requests" = some requestsSchema ∧
    createTableInstructions.lookup "notifications" = some notificationsSchema ∧
    createTableInstructions.lookup "log_runners" = some logRunnersSchema ∧
    createTableInstructions.lookup "log_hits" = some logHitsSchema ∧
    hearingsSchema.primaryKey = ["case_id", "date"] ∧
    hearingsSchema.indexes = ["case_id"] ∧
    requestsSchema.primaryKey = ["case_id", "phone"] ∧
    ⟨"known_case", .boolean, none, .boolFalse⟩ ∈ requestsSchema.columns ∧
    ⟨"active", .boolean, none, .boolTrue⟩ ∈ requestsSchema.columns ∧
    notificationsSchema.primaryKey = [] ∧
    notificationsSchema.foreignKeys
      = [⟨["case_id", "phone"], "requests", ["case_id", "phone"], "CASCADE"⟩] ∧
    ⟨"type", .enu ["reminder", "matched", "expired"], none, .noDefault⟩
      ∈ notificationsSchema.columns ∧
    logRunnersSchema.primaryKey = ["id"] ∧
    ⟨"id", .increments, none, .noDefault⟩ ∈ logRunnersSchema.columns ∧
    ⟨"runner", .enu ["send_reminder", "send_expired", "send_matched", "load"],
        none, .noDefault⟩ ∈ logRunnersSchema.columns := by
  decide

/-! ## C8, C10: connection lifecycle -/

/-- C8. A null argument destroys the entire pool (all idle connections,
and the pool is marked destroyed), while a concrete checked-out handle is
only released back to the pool: it moves from the checked-out set to the
idle set, the destroyed flag is untouched, and every other checked-out
connection stays checked out. -/
theorem closeConnection_cases (p : Pool) (id : Nat) (h : id ∈ p.used) :
    closeConnection .null p = destroyPool p ∧
    (closeConnection .null p).idle = [] ∧
    (closeConnection (.conn id) p).idle = p.idle ++ [id] ∧
    (closeConnection (.conn id) p).used = p.used.erase id ∧
    (closeConnection (.conn id) p).destroyed = p.destroyed ∧
    ∀ j ∈ p.used, j ≠ id → j ∈ (closeConnection (.conn id) p).used := by
  refine ⟨rfl, rfl, ?_, ?_, ?_, ?_⟩
  · simp [closeConnection, jsEqNull, releaseConnection, h]
  · simp [closeConnection, jsEqNull, releaseConnection, h]
  · simp [closeConnection, jsEqNull, releaseConnection, h]
  · intro j hj hne
    simp only [closeConnection, jsEqNull, releaseConnection, h, if_true]
    simpa [List.mem_erase_of_ne hne] using hj

/-- Witness for C8: a pool whose only checked-out connection is 7. -/
theorem closeConnection_cases_witness :
    7 ∈ (Pool.mk [] [7] false).used ∧
    closeConnection .null (Pool.mk [] [7] false)
      = destroyPool (Pool.mk [] [7] false) := by
  have h := closeConnection_cases (Pool.mk [] [7] false) 7 (by decide)
  exact ⟨by decide, h.1⟩

/-- C10. `conn == null` is loose equality, so `undefined` — the value of
a missing argument — takes the destroy branch exactly as `null` does,
rather than being treated as a connection handle. -/
theorem closeConnection_undefined (p : Pool) :
    jsEqNull .undef = true ∧
    closeConnection .undef p = destroyPool p ∧
    closeConnection .undef p = closeConnection .null p :=
  ⟨rfl, rfl, rfl⟩

end Courtbot
